import Mathlib

/-!
Shallow embedding of the resilience core of the tessie-mcp repository:
the error classifier (src/errors.ts, function toMcpError), the retry
engine, the request cache with in-flight coalescing, LRU pruning and
VIN-scoped invalidation (src/tessie-client.ts, class TessieClient), the
response shape validator (assertResultsArray), the cache-key serializer
(serializeParams / cacheKey) and the metadata sanitizer
(sanitizeMetaDeep).  Times are modelled as Int (milliseconds since
epoch, the value of Date.now()).
-/

namespace TessieMcp

/-! ## Thrown JS values

A value thrown inside the client is one of: an axios error (recognised
by axios.isAxiosError, carrying an optional response status and request
config), a plain Error instance (carrying a message, and - to model
property access error.response?.status on arbitrary objects - an
optional status), or any other thrown value. -/

inductive JsThrown where
  /-- An axios error: response?.status, message, config?.url,
  config?.method, response?.statusText. -/
  | axiosErr (status : Option Nat) (message : String)
      (url method statusText : Option String)
  /-- A plain Error instance. The status field models
  e.response?.status for a non-axios Error (none for every Error this
  client itself constructs). -/
  | errorObj (message : String) (status : Option Nat)
  /-- Any other thrown value. -/
  | other
deriving DecidableEq

/-- The details field of an McpError: in the axios branch toMcpError
builds details = one of \x7bcontext, request: \x7burl, method\x7d, statusText\x7d;
the two other branches build details = \x7bcontext\x7d. -/
inductive McpDetails where
  | axios (context : String) (requestUrl requestMethod : Option String)
      (statusText : Option String)
  | plain (context : String)
deriving DecidableEq

/-- The McpError shape produced by toMcpError (src/errors.ts). -/
structure McpError where
  message : String
  status : Option Nat
  retriable : Bool
  suggestion : Option String
  details : McpDetails
deriving DecidableEq

/-- getSuggestionForStatus from src/errors.ts. -/
def getSuggestionForStatus (status : Option Nat) : String :=
  match status with
  | none => "Retry or adjust parameters."
  | some s =>
    if s = 401 then "Check the Tessie API token."
    else if s = 404 then "Verify the VIN or resource exists."
    else if s = 429 then "Back off and retry after the server throttle window."
    else "Retry or adjust parameters."

/-- toMcpError from src/errors.ts.  The axios branch computes
retriable = status ? status >= 500 or status === 429 : true; the Error
branch and the fallback return retriable = false. The JS expression
error.message or-else "Request failed" treats the empty string as
falsy. -/
def toMcpError (error : JsThrown) (context : String) : McpError :=
  match error with
  | .axiosErr status message url method statusText =>
    { message := if message = "" then "Request failed" else message
      status := status
      retriable := match status with
        | some s => decide (500 ≤ s) || s == 429
        | none => true
      suggestion := some (getSuggestionForStatus status)
      details := .axios context url method statusText }
  | .errorObj message _ =>
    { message := message
      status := none
      retriable := false
      suggestion := some "Retry the action or check inputs."
      details := .plain context }
  | .other =>
    { message := "Unknown error"
      status := none
      retriable := false
      suggestion := none
      details := .plain context }

/-! ## Retry engine (TessieClient.withRetry) -/

/-- The status read inline by withRetry: (error as any)?.response?.status. -/
def thrownStatus : JsThrown → Option Nat
  | .axiosErr status _ _ _ _ => status
  | .errorObj _ status => status
  | .other => none

/-- The inline retriability test of withRetry:
status === 429 or (status and status >= 500). A missing status is
falsy, so the whole expression is falsy. -/
def inlineRetriable (e : JsThrown) : Bool :=
  match thrownStatus e with
  | some s => s == 429 || decide (500 ≤ s)
  | none => false

/-- Outcome of one withRetry invocation: the returned value or thrown
McpError, the number of calls made to the wrapped function, and the
list of backoff delays (ms) slept between consecutive calls. -/
structure RetryOutcome (V : Type) where
  result : Except McpError V
  calls : Nat
  delays : List Nat

/-- One traversal of the retry loop of TessieClient.withRetry, from
call index i on.  fn j is the outcome of the (j+1)-th invocation of
the wrapped function.  The loop variable attempt equals i + 1 after
the failure of call i.  The while(true) loop terminates because
attempt >= maxRetries forces a throw; remaining is structural fuel
with the invariant remaining = maxRetries - i at every recursive call
(the fuel-exhausted branch replays the throw branch and is never
reached under that invariant, since the loop recurses only while
attempt < maxRetries). -/
def withRetryGo {V : Type} (fn : Nat → Except JsThrown V) (context : String)
    (maxRetries baseDelayMs : Nat) : Nat → Nat → RetryOutcome V
  | 0, i =>
    match fn i with
    | .ok v => ⟨.ok v, 1, []⟩
    | .error e => ⟨.error (toMcpError e context), 1, []⟩
  | remaining + 1, i =>
    match fn i with
    | .ok v => ⟨.ok v, 1, []⟩
    | .error e =>
      let attempt := i + 1
      if inlineRetriable e = false ∨ maxRetries ≤ attempt then
        ⟨.error (toMcpError e context), 1, []⟩
      else
        let rest := withRetryGo fn context maxRetries baseDelayMs remaining attempt
        ⟨rest.result, 1 + rest.calls, (baseDelayMs * 2 ^ (attempt - 1)) :: rest.delays⟩

/-- Default private maxRetries = 3 of TessieClient. -/
def maxRetriesDefault : Nat := 3

/-- Default private baseDelayMs = 500 of TessieClient. -/
def baseDelayMsDefault : Nat := 500

/-- TessieClient.withRetry with the default configuration. -/
def withRetry {V : Type} (fn : Nat → Except JsThrown V) (context : String) :
    RetryOutcome V :=
  withRetryGo fn context maxRetriesDefault baseDelayMsDefault maxRetriesDefault 0

/-! ## Cache store (TessieClient.cache), modelled as an association
list in insertion order, the iteration order of a JS Map. -/

/-- CacheEntry of tessie-client.ts:
\x7b expires: number; value: unknown; touched: number \x7d. -/
structure CacheEntry (V : Type) where
  expires : Int
  value : V
  touched : Int
deriving DecidableEq

/-- A JS Map with string keys: entries in insertion order, keys unique. -/
abbrev JsMap (α : Type) := List (String × α)

/-- Map.set: replace in place if the key is present (a JS Map keeps
the original insertion position), else append at the end. -/
def mapSet {α : Type} (k : String) (v : α) : JsMap α → JsMap α
  | [] => [(k, v)]
  | (k2, v2) :: rest =>
    if k2 = k then (k, v) :: rest else (k2, v2) :: mapSet k v rest

/-- Map.delete. -/
def mapDelete {α : Type} (k : String) (m : JsMap α) : JsMap α :=
  m.filter (fun p => p.1 ≠ k)

abbrev CacheMap (V : Type) := JsMap (CacheEntry V)

/-- TessieClient.pruneCache: drop every entry with expires <= now
while iterating the map, then, if the store is still over
maxCacheSize, sort the remaining entries ascending by touched (the JS
Array.prototype.sort is stable, hence mergeSort) and delete the first
size - maxCacheSize of them. -/
def pruneCache {V : Type} (now : Int) (maxCacheSize : Nat) (cache : CacheMap V) :
    CacheMap V :=
  let live := cache.filter (fun p => !decide (p.2.expires ≤ now))
  if live.length ≤ maxCacheSize then live
  else
    let sorted := live.mergeSort (fun a b => decide (a.2.touched ≤ b.2.touched))
    let over := live.length - maxCacheSize
    (sorted.take over).foldl (fun acc p => mapDelete p.1 acc) live

/-- JS String.prototype.split with the one-character separator ":"
(auxiliary recursion over the characters, acc holds the current
segment reversed). -/
def splitSegsAux : List Char → List Char → List String
  | [], acc => [String.mk acc.reverse]
  | c :: rest, acc =>
    if c = ':' then String.mk acc.reverse :: splitSegsAux rest []
    else splitSegsAux rest (c :: acc)

/-- key.split(":") of TessieClient.invalidateVin. -/
def splitSegs (s : String) : List String :=
  splitSegsAux s.data []

/-- The per-key test of TessieClient.invalidateVin: the key is
deleted when segments[0] === "vehicles", or when
segments.length >= 2 and segments[1] === vin. -/
def invalidateMatch (vin key : String) : Bool :=
  let segments := splitSegs key
  segments.getD 0 "" == "vehicles"
    || (decide (2 ≤ segments.length) && segments.getD 1 "" == vin)

/-- TessieClient.invalidateVin: delete every matching key while
iterating the cache (net effect: filter). -/
def invalidateVin {V : Type} (vin : String) (cache : CacheMap V) : CacheMap V :=
  cache.filter (fun p => !invalidateMatch vin p.1)

/-- The cache effect of TessieClient.sendCommand: the command runs
through withRetry only (never through the cache); on success
invalidateVin(vin) runs, on a thrown McpError it does not (the await
rethrows before the invalidation line). -/
def sendCommandCache {V W : Type} (vin : String) (outcome : Except McpError W)
    (cache : CacheMap V) : CacheMap V :=
  match outcome with
  | .ok _ => invalidateVin vin cache
  | .error _ => cache

/-! ## cached / in-flight coalescing (TessieClient.cached), as a
cooperative-interleaving trace semantics.

One event is either a call of cached(key, ttl, fetcher) by a caller
(running synchronously to its first suspension point: cache lookup,
in-flight lookup, and - on a miss - starting the fetch and
registering the pending promise), or the settlement of the pending
fetch for a key (success: store with the jittered expiry drawn for
this fetch, prune, resolve every attached caller, and the finally
clause deletes the in-flight entry; failure: the finally clause
deletes the in-flight entry and every attached caller rejects, the
cache untouched).  The jittered expiry
Date.now() + max(0, floor(ttlMs * jitter)) is carried by the
settlement event as the externally drawn value expires; touched is
Date.now() at settlement.  F is the type the fetcher rejects with
(for the read methods, the McpError thrown by withRetry). -/

inductive CEvent (V F : Type) where
  | call (caller : Nat) (key : String) (now : Int)
  | settleOk (key : String) (value : V) (expires touched : Int)
  | settleErr (key : String) (err : F)

/-- The client state seen by cached, plus the bookkeeping of an
execution: results delivered to callers (most recent first) and the
log of upstream fetch starts. -/
structure CState (V F : Type) where
  cache : CacheMap V
  inFlight : JsMap (List Nat)
  results : List (Nat × Except F V)
  upstream : List String

def initState {V F : Type} : CState V F := ⟨[], [], [], []⟩

/-- The miss path of cached: join the pending fetch for the key if
one exists, else start a fresh fetch (log one upstream call) and
register the pending promise with this caller attached. -/
def stepStartOrJoin {V F : Type} (c : Nat) (k : String) (st : CState V F) :
    CState V F :=
  match st.inFlight.lookup k with
  | some waiters => { st with inFlight := mapSet k (waiters ++ [c]) st.inFlight }
  | none =>
    { st with
      inFlight := mapSet k [c] st.inFlight
      upstream := st.upstream ++ [k] }

/-- One event of the trace semantics.  maxCacheSize is the
constructor option (default 200).  pruneCache reads Date.now() in the
same tick as the store, so it runs at the touched timestamp. -/
def step {V F : Type} (maxCacheSize : Nat) (st : CState V F) :
    CEvent V F → CState V F
  | .call c k now =>
    match st.cache.lookup k with
    | some e =>
      if now < e.expires then
        { st with results := (c, Except.ok e.value) :: st.results }
      else stepStartOrJoin c k st
    | none => stepStartOrJoin c k st
  | .settleOk k v expires touched =>
    { cache := pruneCache touched maxCacheSize (mapSet k ⟨expires, v, touched⟩ st.cache)
      inFlight := mapDelete k st.inFlight
      results := ((st.inFlight.lookup k).getD []).map (fun c => (c, Except.ok v))
        ++ st.results
      upstream := st.upstream }
  | .settleErr k err =>
    { cache := st.cache
      inFlight := mapDelete k st.inFlight
      results := ((st.inFlight.lookup k).getD []).map (fun c => (c, Except.error err))
        ++ st.results
      upstream := st.upstream }

/-- Run a trace from the state of a freshly constructed client. -/
def runTrace {V F : Type} (maxCacheSize : Nat) (events : List (CEvent V F)) :
    CState V F :=
  events.foldl (step maxCacheSize) initState

/-! ## Response shape validation (assertResultsArray) -/

/-- A JSON-ish JS value, for response data. -/
inductive Jx where
  | null
  | num (n : Int)
  | str (s : String)
  | bool (b : Bool)
  | arr (xs : List Jx)
  | obj (fields : List (String × Jx))

/-- The default item check of assertResultsArray:
item !== null and typeof item === "object" and !Array.isArray(item),
which holds exactly for plain objects. -/
def isValidShapeDefault : Jx → Bool
  | .obj _ => true
  | _ => false

/-- assertResultsArray from tessie-client.ts: accept a bare array or
a results-wrapped array, reject anything else with the format error;
then reject any item failing the validator (the given one, else the
default shape check) with the item-shape error. -/
def assertResultsArray (data : Jx) (context : String)
    (validate : Option (Jx → Bool)) : Except String (List Jx) :=
  let items : Option Jx :=
    match data with
    | .arr xs => some (.arr xs)
    | .obj fields => fields.lookup "results"
    | _ => none
  match items with
  | some (.arr xs) =>
    if xs.all (fun item =>
        match validate with
        | some f => f item
        | none => isValidShapeDefault item) then
      Except.ok xs
    else Except.error ("Unexpected item shape from " ++ context)
  | _ => Except.error ("Unexpected response format from " ++ context)

/-! ## Cache keys (serializeParams / cacheKey) -/

/-- A parameter value as passed in an options object.  bigintVal is a
value JSON.stringify cannot encode (it throws a TypeError). -/
inductive PVal where
  | str (s : String)
  | num (n : Int)
  | bool (b : Bool)
  | null
  | bigintVal (n : Int)
deriving DecidableEq

abbrev ParamsObj := List (String × PVal)

/-- Whether JSON.stringify can encode the value. -/
def PVal.jsonSerializable : PVal → Bool
  | .bigintVal _ => false
  | _ => true

/-- JSON rendering of a parameter value (parameter values here are
dates, limits and flags, so no string escaping arises). -/
def renderPVal : PVal → String
  | .str s => "\"" ++ s ++ "\""
  | .num n => toString n
  | .bool b => if b then "true" else "false"
  | .null => "null"
  | .bigintVal n => toString n

/-- JSON.stringify of a flat object: throws (none) when a value is
not serializable. -/
def stringifyObj (fields : ParamsObj) : Option String :=
  if fields.all (fun p => p.2.jsonSerializable) then
    some ("\x7b" ++ String.intercalate ","
      (fields.map (fun p => "\"" ++ p.1 ++ "\":" ++ renderPVal p.2)) ++ "\x7d")
  else none

/-- TessieClient.serializeParams: no params gives ""; else sort the
entries by key (localeCompare, modelled as the string order - the
keys in use are plain ASCII words, and the claims do not depend on
the collation) and stringify; if stringify throws, warn and return
the sentinel. -/
def serializeParams (params : Option ParamsObj) : String :=
  match params with
  | none => ""
  | some p =>
    match stringifyObj (p.mergeSort (fun a b => decide (a.1 ≤ b.1))) with
    | some s => s
    | none => "__UNSERIALIZABLE_PARAMS__"

/-- TessieClient.cacheKey: [kind, ...parts].join(":"). -/
def cacheKey (kind : String) (parts : List String) : String :=
  String.intercalate ":" (kind :: parts)

/-- The cache key built by TessieClient.getDrives:
cacheKey("drives", vin, serializeParams(options)). -/
def getDrivesKey (vin : String) (params : Option ParamsObj) : String :=
  cacheKey "drives" [vin, serializeParams params]

/-! ## Metadata sanitizer (sanitizeMetaDeep)

JS values form an object graph that may contain cycles, so the input
is modelled as a heap of addressed nodes and the argument as a
reference.  The WeakSet visited is threaded through the traversal (the
code mutates one shared set).  The recursion of the source has no
fuel; fuel here counts call depth, so the source diverging on an
input is rendered as the model returning none for every fuel. -/

inductive JsPrim where
  | str (s : String)
  | num (n : Int)
  | bool (b : Bool)
  | null
  | undef
deriving DecidableEq

/-- A JS value position: a primitive or the address of a heap object. -/
inductive JsRef where
  | prim (p : JsPrim)
  | addr (a : Nat)
deriving DecidableEq

/-- A heap node: a plain object, an array, or an Error instance. -/
inductive JsNode where
  | objNode (fields : List (String × JsRef))
  | arrNode (elems : List JsRef)
  | errNode (name message : String)

abbrev Heap := List (Nat × JsNode)

/-- The SENSITIVE_KEYS list of sanitizeMetaDeep. -/
def sensitiveKeys : List String :=
  ["headers", "authorization", "auth", "token", "password", "apikey", "api_key"]

/-- The sanitizer output: a fresh tree.  circular is the
"[Circular]" sentinel; errPair is the \x7bname, message\x7d clone of an
Error. -/
inductive SVal where
  | prim (p : JsPrim)
  | circular
  | errPair (name message : String)
  | arr (xs : List SVal)
  | obj (fields : List (String × SVal))

/-- value.map(v => sanitizeMetaDeep(v, visited)): sanitize the
elements left to right, threading the shared visited set. -/
def sanitizeElems (san : List Nat → JsRef → Option (SVal × List Nat)) :
    List Nat → List JsRef → Option (List SVal × List Nat)
  | vis, [] => some ([], vis)
  | vis, r :: rs =>
    match san vis r with
    | none => none
    | some (v, vis2) =>
      match sanitizeElems san vis2 rs with
      | none => none
      | some (vs, vis3) => some (v :: vs, vis3)

/-- key.toLowerCase(), character by character. -/
def lowerKey (s : String) : String :=
  String.mk (s.data.map Char.toLower)

/-- The Object.entries loop of the object branch: skip keys whose
toLowerCase is in SENSITIVE_KEYS, sanitize the rest in order,
threading the shared visited set. -/
def sanitizeFields (san : List Nat → JsRef → Option (SVal × List Nat)) :
    List Nat → List (String × JsRef) → Option (List (String × SVal) × List Nat)
  | vis, [] => some ([], vis)
  | vis, (key, r) :: rest =>
    if sensitiveKeys.contains (lowerKey key) then sanitizeFields san vis rest
    else
      match san vis r with
      | none => none
      | some (v, vis2) =>
        match sanitizeFields san vis2 rest with
        | none => none
        | some (ps, vis3) => some ((key, v) :: ps, vis3)

/-- sanitizeMetaDeep from tessie-client.ts over the heap model.  The
branch order is that of the source: Error instances first, then
arrays (recursing with NO visited check), then objects (returning the
"[Circular]" sentinel when the object is already in visited, else
adding it before walking its entries), else the value itself. -/
def sanitizeRef (h : Heap) : Nat → List Nat → JsRef → Option (SVal × List Nat)
  | 0, _, _ => none
  | fuel + 1, vis, ref =>
    match ref with
    | .prim p => some (.prim p, vis)
    | .addr a =>
      match h.lookup a with
      | none => some (.prim .undef, vis)
      | some (.errNode n m) => some (.errPair n m, vis)
      | some (.arrNode xs) =>
        match sanitizeElems (sanitizeRef h fuel) vis xs with
        | none => none
        | some (vs, vis2) => some (.arr vs, vis2)
      | some (.objNode fs) =>
        if a ∈ vis then some (.circular, vis)
        else
          match sanitizeFields (sanitizeRef h fuel) (a :: vis) fs with
          | none => none
          | some (ps, vis2) => some (.obj ps, vis2)

/-- The heap of the one-element cyclic array a = []; a.push(a). -/
def cyclicArrayHeap : Heap := [(0, .arrNode [.addr 0])]

/-- The heap of the self-referential object o = \x7b\x7d; o.self = o. -/
def cyclicObjHeap : Heap := [(0, .objNode [("self", .addr 0)])]

/-! ## Concrete fixtures used by witnesses and counterexamples -/

/-- A fetcher failing twice with HTTP 500 and then succeeding. -/
def fnTwice500 : Nat → Except JsThrown Nat := fun i =>
  if i < 2 then
    .error (.axiosErr (some 500) "Request failed with status code 500" none none none)
  else .ok 7

/-- An axios error with response status 408. -/
def err408 : JsThrown :=
  .axiosErr (some 408) "Request failed with status code 408" none none none

/-- An axios connection-timeout rejection: no response, hence no
response status. -/
def errNoStatus : JsThrown :=
  .axiosErr none "timeout of 30000ms exceeded" none none none

/-- A fetcher that always fails with the statusless axios error. -/
def fnNoStatus : Nat → Except JsThrown Nat := fun _ => .error errNoStatus

/-- An axios error with response status 404. -/
def err404 : JsThrown :=
  .axiosErr (some 404) "Request failed with status code 404" none none none

/-- A fetcher that always fails with the 404 error. -/
def fn404 : Nat → Except JsThrown Nat := fun _ => .error err404

/-- A three-entry cache whose entry "b" is the least recently
touched; all entries live at time 0. -/
def demoCache : CacheMap Nat :=
  [("a", ⟨100, 1, 10⟩), ("b", ⟨100, 2, 5⟩), ("c", ⟨100, 3, 20⟩)]

/-- A parameter object JSON.stringify rejects (BigInt value). -/
def paramsBig1 : ParamsObj := [("limit", .bigintVal 5)]

/-- A different parameter object JSON.stringify also rejects. -/
def paramsBig2 : ParamsObj := [("limit", .bigintVal 6)]

/-! # Theorems -/

/-! ## Retry engine lemmas -/

/-- Every traversal of the retry loop makes at least one call. -/
theorem withRetryGo_calls_pos {V : Type} (fn : Nat → Except JsThrown V) (ctx : String)
    (mr bd : Nat) : ∀ (remaining i : Nat),
    1 ≤ (withRetryGo fn ctx mr bd remaining i).calls := by
  intro remaining i
  cases remaining with
  | zero => cases hfn : fn i <;> simp [withRetryGo, hfn]
  | succ r =>
    cases hfn : fn i with
    | ok v => simp [withRetryGo, hfn]
    | error e =>
      simp only [withRetryGo, hfn]
      split <;> simp

/-- The loop starting at call index i makes at most max (mr - i) 1
calls: the attempt counter reaching maxRetries forces a throw. -/
theorem withRetryGo_calls_le {V : Type} (fn : Nat → Except JsThrown V) (ctx : String)
    (mr bd : Nat) : ∀ (remaining i : Nat),
    (withRetryGo fn ctx mr bd remaining i).calls ≤ max (mr - i) 1 := by
  intro remaining
  induction remaining with
  | zero =>
    intro i
    cases hfn : fn i <;> simp [withRetryGo, hfn]
  | succ r ih =>
    intro i
    cases hfn : fn i with
    | ok v => simp [withRetryGo, hfn]
    | error e =>
      by_cases hc : inlineRetriable e = false ∨ mr ≤ i + 1
      · simp [withRetryGo, hfn, hc]
      · have h2 := ih (i + 1)
        simp [withRetryGo, hfn, hc]
        push_neg at hc
        omega

/-- Every error result of the retry loop is the classification of
some thrown error of the wrapped function: the raw thrown value is
never the result. -/
theorem withRetryGo_error_classified {V : Type} (fn : Nat → Except JsThrown V)
    (ctx : String) (mr bd : Nat) : ∀ (remaining i : Nat) (m : McpError),
    (withRetryGo fn ctx mr bd remaining i).result = .error m →
    ∃ j e2, fn j = .error e2 ∧ m = toMcpError e2 ctx := by
  intro remaining
  induction remaining with
  | zero =>
    intro i m hm
    cases hfn : fn i with
    | ok v => simp [withRetryGo, hfn] at hm
    | error e =>
      simp [withRetryGo, hfn] at hm
      exact ⟨i, e, hfn, hm.symm⟩
  | succ r ih =>
    intro i m hm
    cases hfn : fn i with
    | ok v => simp [withRetryGo, hfn] at hm
    | error e =>
      by_cases hc : inlineRetriable e = false ∨ mr ≤ i + 1
      · simp [withRetryGo, hfn, hc] at hm
        exact ⟨i, e, hfn, hm.symm⟩
      · simp [withRetryGo, hfn, hc] at hm
        exact ih (i + 1) m hm

/-- One retrying step of the loop adds one call. -/
theorem withRetryGo_retry_step {V : Type} (fn : Nat → Except JsThrown V) (ctx : String)
    (mr bd r i : Nat) (e : JsThrown) (hfn : fn i = .error e)
    (ht : inlineRetriable e = true) (hlt : i + 1 < mr) :
    (withRetryGo fn ctx mr bd (r + 1) i).calls
      = 1 + (withRetryGo fn ctx mr bd r (i + 1)).calls := by
  have hc : ¬(inlineRetriable e = false ∨ mr ≤ i + 1) := by
    simp [ht]
    omega
  simp [withRetryGo, hfn, hc]

/-- Claim C3: with the default configuration (3 total attempts, base
delay 500 ms), a fetcher that fails twice with HTTP 500 and then
succeeds is invoked exactly 3 times by withRetry, the backoff delays
slept between consecutive attempts are 500 ms and then 1000 ms
(baseDelay * 2^(attempt-1)), the success value is returned, and no
run of withRetry ever makes more than 3 calls. -/
theorem withRetry_backoff_schedule {V : Type} (v : V) (fn : Nat → Except JsThrown V)
    (ctx m1 m2 : String) (u1 u2 me1 me2 st1 st2 : Option String)
    (h0 : fn 0 = .error (.axiosErr (some 500) m1 u1 me1 st1))
    (h1 : fn 1 = .error (.axiosErr (some 500) m2 u2 me2 st2))
    (h2 : fn 2 = .ok v) :
    (withRetry fn ctx).result = .ok v
    ∧ (withRetry fn ctx).calls = 3
    ∧ (withRetry fn ctx).delays = [500, 1000]
    ∧ ∀ (g : Nat → Except JsThrown V) (c : String), (withRetry g c).calls ≤ 3 := by
  have hrun : withRetry fn ctx = ⟨.ok v, 3, [500, 1000]⟩ := by
    simp [withRetry, maxRetriesDefault, baseDelayMsDefault, withRetryGo, h0, h1, h2,
      inlineRetriable, thrownStatus]
  refine ⟨by simp [hrun], by simp [hrun], by simp [hrun], ?_⟩
  intro g c
  have := withRetryGo_calls_le g c maxRetriesDefault baseDelayMsDefault maxRetriesDefault 0
  simpa [withRetry, maxRetriesDefault] using this

/-- Witness for C3 at the concrete fetcher fnTwice500. -/
theorem withRetry_backoff_schedule_witness :
    (withRetry fnTwice500 "getDrives").result = .ok 7
    ∧ (withRetry fnTwice500 "getDrives").calls = 3
    ∧ (withRetry fnTwice500 "getDrives").delays = [500, 1000]
    ∧ ∀ (g : Nat → Except JsThrown Nat) (c : String), (withRetry g c).calls ≤ 3 :=
  withRetry_backoff_schedule 7 fnTwice500 "getDrives" "Request failed with status code 500"
    "Request failed with status code 500" none none none none none none rfl rfl rfl

/-- Claim C4 (amended): the classifier toMcpError marks an axios
error with a status retriable exactly when the status is at least 500
or equals 429 - hence false for 401, 403, 404 AND for 408 (the code
has no timeout special case); an axios error without a status is
retriable = true (not false); a non-axios error object and an unknown
thrown value are retriable = false. -/
theorem toMcpError_retriability (ctx msg : String) (u me st : Option String) (s : Nat) :
    (toMcpError (.axiosErr (some s) msg u me st) ctx).retriable
        = (decide (500 ≤ s) || s == 429)
    ∧ (toMcpError (.axiosErr (some 401) msg u me st) ctx).retriable = false
    ∧ (toMcpError (.axiosErr (some 403) msg u me st) ctx).retriable = false
    ∧ (toMcpError (.axiosErr (some 404) msg u me st) ctx).retriable = false
    ∧ (toMcpError (.axiosErr (some 408) msg u me st) ctx).retriable = false
    ∧ (toMcpError (.axiosErr (some 429) msg u me st) ctx).retriable = true
    ∧ (toMcpError (.axiosErr (some 500) msg u me st) ctx).retriable = true
    ∧ (toMcpError (.axiosErr (some 502) msg u me st) ctx).retriable = true
    ∧ (toMcpError (.axiosErr (some 503) msg u me st) ctx).retriable = true
    ∧ (toMcpError (.axiosErr (some 504) msg u me st) ctx).retriable = true
    ∧ (toMcpError (.axiosErr none msg u me st) ctx).retriable = true
    ∧ (∀ (m : String) (s2 : Option Nat), (toMcpError (.errorObj m s2) ctx).retriable = false)
    ∧ (toMcpError .other ctx).retriable = false :=
  ⟨rfl, rfl, rfl, rfl, rfl, rfl, rfl, rfl, rfl, rfl, rfl, fun _ _ => rfl, rfl⟩

/-- Counterexample to claim C4 as stated: at status 408 the
classifier yields retriable = false (the claim says true for 408 and
connection timeouts), and at an axios error carrying no status it
yields retriable = true (the claim says false for every error object
without a status). -/
theorem toMcpError_claim408 :
    (toMcpError err408 "getVehicleState").retriable = false
    ∧ (toMcpError errNoStatus "getVehicleState").retriable = true := ⟨rfl, rfl⟩

/-- Claim C5 (amended): withRetry retries exactly when the thrown
value carries a response status equal to 429 or at least 500 and
attempts remain; for axios errors carrying a status this inline test
coincides with the classified retriability, but an axios error with
no status is classified retriable = true and is still never retried;
a non-retriable-by-status failure (for example a 404) gives exactly
one call and the classified descriptor; and every failing outcome
delivers a classified ErrorDescriptor (toMcpError of some thrown
error), never the raw error. -/
theorem withRetry_retry_iff_inline_status {V : Type} (fn : Nat → Except JsThrown V)
    (ctx : String) (e : JsThrown) (h0 : fn 0 = .error e) :
    (inlineRetriable e = false →
      withRetry fn ctx = ⟨.error (toMcpError e ctx), 1, []⟩)
    ∧ (inlineRetriable e = true → 2 ≤ (withRetry fn ctx).calls)
    ∧ (∀ (g : Nat → Except JsThrown V) (m : McpError),
        (withRetry g ctx).result = .error m →
        ∃ j e2, g j = .error e2 ∧ m = toMcpError e2 ctx)
    ∧ (∀ (s : Nat) (msg : String) (u me st : Option String),
        inlineRetriable (.axiosErr (some s) msg u me st)
          = (toMcpError (.axiosErr (some s) msg u me st) ctx).retriable) := by
  refine ⟨?_, ?_, ?_, ?_⟩
  · intro hf
    simp [withRetry, maxRetriesDefault, baseDelayMsDefault, withRetryGo, h0, hf]
  · intro ht
    have hstep := withRetryGo_retry_step fn ctx 3 500 2 0 e h0 ht (by omega)
    have hpos := withRetryGo_calls_pos fn ctx 3 500 2 1
    norm_num at hstep
    have heq : (withRetry fn ctx).calls = (withRetryGo fn ctx 3 500 3 0).calls := rfl
    omega
  · intro g m hm
    have hm2 : (withRetryGo g ctx maxRetriesDefault baseDelayMsDefault
        maxRetriesDefault 0).result = .error m := hm
    exact withRetryGo_error_classified g ctx maxRetriesDefault baseDelayMsDefault
      maxRetriesDefault 0 m hm2
  · intro s msg u me st
    simp [inlineRetriable, thrownStatus, toMcpError, Bool.or_comm]

/-- Witness for C5 at the concrete 404-failing fetcher. -/
theorem withRetry_retry_iff_inline_status_witness :
    (inlineRetriable err404 = false →
      withRetry fn404 "getVehicleState"
        = ⟨.error (toMcpError err404 "getVehicleState"), 1, []⟩)
    ∧ (inlineRetriable err404 = true → 2 ≤ (withRetry fn404 "getVehicleState").calls)
    ∧ (∀ (g : Nat → Except JsThrown Nat) (m : McpError),
        (withRetry g "getVehicleState").result = .error m →
        ∃ j e2, g j = .error e2 ∧ m = toMcpError e2 "getVehicleState")
    ∧ (∀ (s : Nat) (msg : String) (u me st : Option String),
        inlineRetriable (.axiosErr (some s) msg u me st)
          = (toMcpError (.axiosErr (some s) msg u me st) "getVehicleState").retriable) :=
  withRetry_retry_iff_inline_status fn404 "getVehicleState" err404 rfl

/-- Counterexample to claim C5 as stated: the statusless axios
timeout is classified retriable = true and attempts remain, yet
withRetry makes exactly one call and fails immediately with the
classified descriptor. -/
theorem withRetry_classified_retriable_not_retried :
    (toMcpError errNoStatus "getVehicleState").retriable = true
    ∧ 1 < maxRetriesDefault
    ∧ (withRetry fnNoStatus "getVehicleState").calls = 1
    ∧ (withRetry fnNoStatus "getVehicleState").result
        = .error (toMcpError errNoStatus "getVehicleState") := ⟨rfl, by decide, rfl, rfl⟩

/-! ## Cache and coalescing lemmas -/

/-- Deleting a key from a JS map leaves no entry for it. -/
theorem lookup_mapDelete_self {α : Type} (k : String) (m : JsMap α) :
    (mapDelete k m).lookup k = none := by
  rw [List.lookup_eq_none_iff]
  intro b hb
  simp [mapDelete, List.mem_filter] at hb
  simp only [bne_iff_ne]
  exact fun h => hb.2 h.symm

/-- Looking up a caller in a block of identical delivered results
finds that result. -/
theorem lookup_map_const {α : Type} (c : Nat) (ws : List Nat) (x : α)
    (rest : List (Nat × α)) :
    c ∈ ws → List.lookup c (ws.map (fun w => (w, x)) ++ rest) = some x := by
  induction ws with
  | nil => intro hc; cases hc
  | cons w ws2 ih =>
    intro hc
    by_cases hw : w = c
    · simp [List.lookup, hw]
    · have hc2 : c ∈ ws2 := by
        cases hc with
        | head => exact absurd rfl hw
        | tail _ h => exact h
      have hb : (c == w) = false := by simp [Ne.symm hw]
      simp only [List.map_cons, List.cons_append, List.lookup, hb]
      exact ih hc2

/-- A miss, a successful settlement, and a second call before the
stored (jittered) expiry: the full resulting state, with one upstream
call and the cached value delivered to the second caller. -/
theorem runTrace_one_fetch {V F : Type} (maxSize : Nat) (k : String) (v : V)
    (c1 c2 : Nat) (t0 e tch t2 : Int) (hstore : tch < e) (hwithin : t2 < e)
    (hmax : 0 < maxSize) :
    runTrace maxSize [CEvent.call c1 k t0, CEvent.settleOk k v e tch,
        (CEvent.call c2 k t2 : CEvent V F)]
      = ⟨[(k, ⟨e, v, tch⟩)], [], [(c2, Except.ok v), (c1, Except.ok v)], [k]⟩ := by
  have h1 : ¬(e ≤ tch) := by omega
  have h2 : 1 ≤ maxSize := hmax
  simp [runTrace, step, stepStartOrJoin, initState, pruneCache, mapSet, mapDelete,
    List.lookup, h1, h2, hwithin]

/-- Claim C1: a call of cached whose key holds a live entry (expiry
strictly in the future) returns the stored value and changes nothing
else - no fetcher invocation, no upstream call; consequently calling
the same read twice, the second within the stored jittered TTL,
performs exactly one upstream call and serves the cached value. -/
theorem cached_hit_suppresses_io {V F : Type} (maxSize : Nat) (st : CState V F)
    (c : Nat) (k : String) (now : Int) (ent : CacheEntry V)
    (hent : st.cache.lookup k = some ent) (hlive : now < ent.expires)
    (k2 : String) (v : V) (c1 c2 : Nat) (t0 e tch t2 : Int)
    (hstore : tch < e) (hwithin : t2 < e) (hmax : 0 < maxSize) :
    step maxSize st (.call c k now)
        = { st with results := (c, Except.ok ent.value) :: st.results }
    ∧ runTrace maxSize [CEvent.call c1 k2 t0, CEvent.settleOk k2 v e tch,
        (CEvent.call c2 k2 t2 : CEvent V F)]
        = ⟨[(k2, ⟨e, v, tch⟩)], [], [(c2, Except.ok v), (c1, Except.ok v)], [k2]⟩ :=
  ⟨by simp [step, hent, hlive],
   runTrace_one_fetch maxSize k2 v c1 c2 t0 e tch t2 hstore hwithin hmax⟩

/-- Witness for C1 at concrete states and times. -/
theorem cached_hit_suppresses_io_witness :
    step 200 (⟨[("state:VIN1", ⟨100, 5, 10⟩)], [], [], []⟩ : CState Nat String)
        (.call 3 "state:VIN1" 50)
      = ⟨[("state:VIN1", ⟨100, 5, 10⟩)], [], [(3, Except.ok 5)], []⟩
    ∧ runTrace 200 [CEvent.call 0 "drives:VIN1:x" 0,
        CEvent.settleOk "drives:VIN1:x" 7 40 20,
        (CEvent.call 1 "drives:VIN1:x" 30 : CEvent Nat String)]
      = ⟨[("drives:VIN1:x", ⟨40, 7, 20⟩)], [],
         [(1, Except.ok 7), (0, Except.ok 7)], ["drives:VIN1:x"]⟩ :=
  cached_hit_suppresses_io 200 ⟨[("state:VIN1", ⟨100, 5, 10⟩)], [], [], []⟩ 3
    "state:VIN1" 50 ⟨100, 5, 10⟩ rfl (by decide) "drives:VIN1:x" 7 0 1 0 40 20 30
    (by decide) (by decide) (by decide)

/-- Claim C2: while a fetch for a key is pending and nothing live is
cached, a further call for that key joins the pending fetch - the
in-flight map is extended with the caller and no upstream call
starts; every settlement (success or failure) removes the key from
the in-flight map; two concurrent callers of an uncached key cause
exactly one upstream call and both receive the settled value, or both
the same rejection; and after a failed settlement a later call starts
a fresh fetch. -/
theorem coalescing_single_upstream {V F : Type} (maxSize : Nat) (st : CState V F)
    (c : Nat) (k : String) (now : Int) (ws : List Nat)
    (hnc : ∀ ent, st.cache.lookup k = some ent → ent.expires ≤ now)
    (hif : st.inFlight.lookup k = some ws)
    (k2 : String) (v : V) (f : F) (c1 c2 c3 : Nat) (t0 t1 t3 e tch : Int) :
    step maxSize st (.call c k now)
      = { st with inFlight := mapSet k (ws ++ [c]) st.inFlight }
    ∧ (∀ (v2 : V) (e2 tc2 : Int),
        ((step maxSize st (.settleOk k v2 e2 tc2)).inFlight).lookup k = none)
    ∧ (∀ f2 : F, ((step maxSize st (.settleErr k f2)).inFlight).lookup k = none)
    ∧ runTrace maxSize [CEvent.call c1 k2 t0, CEvent.call c2 k2 t1,
        (CEvent.settleOk k2 v e tch : CEvent V F)]
      = ⟨pruneCache tch maxSize [(k2, ⟨e, v, tch⟩)], [],
         [(c1, Except.ok v), (c2, Except.ok v)], [k2]⟩
    ∧ runTrace maxSize [CEvent.call c1 k2 t0, CEvent.call c2 k2 t1,
        CEvent.settleErr k2 f, (CEvent.call c3 k2 t3 : CEvent V F)]
      = ⟨[], [(k2, [c3])], [(c1, Except.error f), (c2, Except.error f)], [k2, k2]⟩ := by
  refine ⟨?_, ?_, ?_, ?_, ?_⟩
  · cases hc : st.cache.lookup k with
    | none => simp [step, stepStartOrJoin, hc, hif]
    | some ent =>
      have hx := hnc ent hc
      have hlt : ¬ now < ent.expires := by omega
      simp [step, stepStartOrJoin, hc, hif, hlt]
  · intro v2 e2 tc2
    exact lookup_mapDelete_self k st.inFlight
  · intro f2
    exact lookup_mapDelete_self k st.inFlight
  · simp [runTrace, step, stepStartOrJoin, initState, mapSet, mapDelete, List.lookup]
  · simp [runTrace, step, stepStartOrJoin, initState, mapSet, mapDelete, List.lookup]

/-- Witness for C2 at a concrete pending state and trace. -/
theorem coalescing_single_upstream_witness :
    step 200 (⟨[], [("k", [0])], [], ["k"]⟩ : CState Nat String) (.call 1 "k" 5)
      = ⟨[], [("k", [0, 1])], [], ["k"]⟩
    ∧ (∀ (v2 : Nat) (e2 tc2 : Int),
        ((step 200 (⟨[], [("k", [0])], [], ["k"]⟩ : CState Nat String)
          (.settleOk "k" v2 e2 tc2)).inFlight).lookup "k" = none)
    ∧ (∀ f2 : String,
        ((step 200 (⟨[], [("k", [0])], [], ["k"]⟩ : CState Nat String)
          (.settleErr "k" f2)).inFlight).lookup "k" = none)
    ∧ runTrace 200 [CEvent.call 0 "q" 0, CEvent.call 1 "q" 1,
        (CEvent.settleOk "q" 7 40 20 : CEvent Nat String)]
      = ⟨pruneCache 20 200 [("q", ⟨40, 7, 20⟩)], [],
         [(0, Except.ok 7), (1, Except.ok 7)], ["q"]⟩
    ∧ runTrace 200 [CEvent.call 0 "q" 0, CEvent.call 1 "q" 1,
        CEvent.settleErr "q" "boom", (CEvent.call 2 "q" 9 : CEvent Nat String)]
      = ⟨[], [("q", [2])], [(0, Except.error "boom"), (1, Except.error "boom")],
         ["q", "q"]⟩ :=
  coalescing_single_upstream 200 ⟨[], [("k", [0])], [], ["k"]⟩ 1 "k" 5 [0]
    (fun _ h => Option.noConfusion h) rfl "q" 7 "boom" 0 1 2 0 1 9 40 20

/-- Claim C8: a failed settlement leaves the cache and the upstream
log unchanged (nothing is stored), removes the key from the in-flight
map, delivers the same rejection to every coalesced waiter, and the
next call for the key starts a fresh upstream fetch; a response
failing shape validation is such a fetcher rejection
(assertResultsArray throws on a non-array results payload and on an
invalid item). -/
theorem fetch_failure_atomic {V F : Type} (maxSize : Nat) (st : CState V F)
    (k : String) (f : F) (ws : List Nat)
    (hif : st.inFlight.lookup k = some ws)
    (hnc : st.cache.lookup k = none) (ctx : String) :
    (step maxSize st (.settleErr k f)).cache = st.cache
    ∧ (step maxSize st (.settleErr k f)).upstream = st.upstream
    ∧ ((step maxSize st (.settleErr k f)).inFlight).lookup k = none
    ∧ (∀ c ∈ ws, ((step maxSize st (.settleErr k f)).results).lookup c
        = some (Except.error f))
    ∧ (∀ (c2 : Nat) (t2 : Int),
        (step maxSize (step maxSize st (.settleErr k f)) (.call c2 k t2)).upstream
          = st.upstream ++ [k])
    ∧ assertResultsArray (.obj [("results", .str "bad")]) ctx none
        = .error ("Unexpected response format from " ++ ctx)
    ∧ assertResultsArray (.arr [.num 1]) ctx none
        = .error ("Unexpected item shape from " ++ ctx) := by
  refine ⟨rfl, rfl, lookup_mapDelete_self k st.inFlight, ?_, ?_, rfl, rfl⟩
  · intro c hc
    show List.lookup c
      (((st.inFlight.lookup k).getD []).map (fun w => (w, Except.error f)) ++ st.results)
      = some (Except.error f)
    rw [hif]
    exact lookup_map_const c ws (Except.error f) st.results hc
  · intro c2 t2
    simp [step, stepStartOrJoin, hnc, lookup_mapDelete_self]

/-- Witness for C8 with two coalesced waiters and a concrete failure. -/
theorem fetch_failure_atomic_witness :
    (step 200 (⟨[], [("k", [0, 1])], [], ["k"]⟩ : CState Nat String)
        (.settleErr "k" "boom")).cache = []
    ∧ (step 200 (⟨[], [("k", [0, 1])], [], ["k"]⟩ : CState Nat String)
        (.settleErr "k" "boom")).upstream = ["k"]
    ∧ ((step 200 (⟨[], [("k", [0, 1])], [], ["k"]⟩ : CState Nat String)
        (.settleErr "k" "boom")).inFlight).lookup "k" = none
    ∧ (∀ c ∈ [0, 1],
        ((step 200 (⟨[], [("k", [0, 1])], [], ["k"]⟩ : CState Nat String)
          (.settleErr "k" "boom")).results).lookup c = some (Except.error "boom"))
    ∧ (∀ (c2 : Nat) (t2 : Int),
        (step 200 (step 200 (⟨[], [("k", [0, 1])], [], ["k"]⟩ : CState Nat String)
          (.settleErr "k" "boom")) (.call c2 "k" t2)).upstream = ["k"] ++ ["k"])
    ∧ assertResultsArray (.obj [("results", .str "bad")]) "listVehicles" none
        = .error ("Unexpected response format from " ++ "listVehicles")
    ∧ assertResultsArray (.arr [.num 1]) "listVehicles" none
        = .error ("Unexpected item shape from " ++ "listVehicles") :=
  fetch_failure_atomic 200 ⟨[], [("k", [0, 1])], [], ["k"]⟩ "k" "boom" [0, 1]
    rfl rfl "listVehicles"

/-! ## Invalidation -/

/-- Claim C6: invalidateVin removes exactly the entries whose key
matches the per-key test, the test holds exactly when the first
segment is "vehicles" or the second segment exactly equals the vin,
sendCommand runs the invalidation after (and only after) the command
completes successfully, and invalidating "VIN123" keeps an entry
scoped to "VIN1234" unchanged while removing "VIN123"-scoped and
roster entries. -/
theorem invalidateVin_exact {V W : Type} (vin : String) (cache : CacheMap V)
    (k : String) (ent : CacheEntry V) (w : W) :
    ((k, ent) ∈ invalidateVin vin cache ↔
      ((k, ent) ∈ cache ∧ invalidateMatch vin k = false))
    ∧ (∀ k2 : String, invalidateMatch vin k2 = true ↔
        ((splitSegs k2).getD 0 "" = "vehicles"
          ∨ (2 ≤ (splitSegs k2).length ∧ (splitSegs k2).getD 1 "" = vin)))
    ∧ sendCommandCache vin (Except.ok w) cache = invalidateVin vin cache
    ∧ (∀ m : McpError,
        sendCommandCache vin (Except.error m : Except McpError W) cache = cache)
    ∧ invalidateMatch "VIN123" "state:VIN1234" = false
    ∧ invalidateMatch "VIN123" "state:VIN123" = true
    ∧ invalidateMatch "VIN123" "vehicles:all" = true
    ∧ (∀ ent2 ent3 ent4 : CacheEntry V,
        invalidateVin "VIN123"
          [("state:VIN123", ent2), ("state:VIN1234", ent3), ("vehicles:all", ent4)]
          = [("state:VIN1234", ent3)]) := by
  have h1 : invalidateMatch "VIN123" "state:VIN1234" = false := by decide
  have h2 : invalidateMatch "VIN123" "state:VIN123" = true := by decide
  have h3 : invalidateMatch "VIN123" "vehicles:all" = true := by decide
  refine ⟨?_, ?_, rfl, fun m => rfl, h1, h2, h3, ?_⟩
  · simp [invalidateVin, List.mem_filter]
  · intro k2
    simp [invalidateMatch, Bool.or_eq_true, Bool.and_eq_true, decide_eq_true_eq,
      beq_iff_eq]
  · intro ent2 ent3 ent4
    simp [invalidateVin, List.filter, h1, h2, h3]

/-! ## Pruning and LRU eviction -/

/-- Membership in a JS map after a delete. -/
theorem mem_mapDelete {α : Type} (k : String) (m : JsMap α) (p : String × α) :
    p ∈ mapDelete k m ↔ p ∈ m ∧ p.1 ≠ k := by
  simp [mapDelete, List.mem_filter]

/-- A fold of deletions only removes entries. -/
theorem mem_foldl_mapDelete {α : Type} (ds : List (String × α)) (L : JsMap α)
    (q : String × α) (hq : q ∈ ds.foldl (fun acc p => mapDelete p.1 acc) L) :
    q ∈ L := by
  induction ds generalizing L with
  | nil => exact hq
  | cons d ds2 ih =>
    have := ih (mapDelete d.1 L) hq
    exact ((mem_mapDelete d.1 L q).mp this).1

/-- Deleting a present key from a map with distinct keys removes
exactly one entry. -/
theorem length_mapDelete_nodup {α : Type} (k : String) (x : α) (l : JsMap α)
    (hmem : (k, x) ∈ l) (hkeys : (l.map Prod.fst).Nodup) :
    (mapDelete k l).length + 1 = l.length := by
  induction l with
  | nil => cases hmem
  | cons q rest ih =>
    rw [List.map_cons] at hkeys
    have hkq := List.nodup_cons.mp hkeys
    by_cases hk : q.1 = k
    · have hall : ∀ p ∈ rest, (p.1 ≠ k : Prop) := by
        intro p hp hpk
        have hpmem := List.mem_map_of_mem Prod.fst hp
        rw [hpk, ← hk] at hpmem
        exact hkq.1 hpmem
      have : mapDelete k (q :: rest) = rest := by
        rw [mapDelete, List.filter_cons]
        have : (decide (q.1 ≠ k)) = false := by simp [hk]
        rw [this]
        simp only [Bool.false_eq_true, if_false]
        rw [show rest.filter (fun p => decide (p.1 ≠ k)) = rest from
          List.filter_eq_self.mpr (fun a ha => by simpa using hall a ha)]
      rw [this]
      simp
    · have hmem2 : (k, x) ∈ rest := by
        cases hmem with
        | head => exact absurd rfl hk
        | tail _ h => exact h
      have : mapDelete k (q :: rest) = q :: mapDelete k rest := by
        rw [mapDelete, List.filter_cons]
        have : (decide (q.1 ≠ k)) = true := by simp [hk]
        rw [this]
        simp [mapDelete]
      rw [this]
      simp only [List.length_cons]
      rw [← ih hmem2 hkq.2]

/-- Claim C7: every successful store runs the pruning pass; the pass
keeps only entries whose expiry is strictly in the future; and on a
cache of N+1 live entries with distinct keys and a strictly least
recently touched entry, pruning with bound N leaves exactly N
entries, evicting precisely the entry with the oldest lastTouchedAt
and keeping every other key. -/
theorem pruneCache_size_bound_lru {V F : Type} (now : Int) (N : Nat)
    (cache : CacheMap V) (mk : String) (ment : CacheEntry V)
    (hmem : (mk, ment) ∈ cache)
    (hkeys : (cache.map Prod.fst).Nodup)
    (hlive : ∀ p ∈ cache, now < p.2.expires)
    (hlen : cache.length = N + 1)
    (hmin : ∀ p ∈ cache, p ≠ (mk, ment) → ment.touched < p.2.touched) :
    (∀ (maxSize : Nat) (st : CState V F) (k : String) (v : V) (e tch : Int),
      (step maxSize st (.settleOk k v e tch)).cache
        = pruneCache tch maxSize (mapSet k ⟨e, v, tch⟩ st.cache))
    ∧ (∀ (ms : Nat) (c2 : CacheMap V) (q : String × CacheEntry V),
        q ∈ pruneCache now ms c2 → now < q.2.expires)
    ∧ (pruneCache now N cache).length = N
    ∧ (mk, ment) ∉ pruneCache now N cache
    ∧ (∀ p ∈ cache, p.1 ≠ mk → p ∈ pruneCache now N cache) := by
  have hfilter : cache.filter (fun p => !decide (p.2.expires ≤ now)) = cache := by
    rw [List.filter_eq_self]
    intro a ha
    have := hlive a ha
    simp
    omega
  have hnotle : ¬ (cache.length ≤ N) := by omega
  have hlensorted :
      (cache.mergeSort (fun a b => decide (a.2.touched ≤ b.2.touched))).length
        = N + 1 := by
    rw [List.length_mergeSort]
    exact hlen
  obtain ⟨hd, tl, hsorted⟩ : ∃ hd tl,
      cache.mergeSort (fun a b => decide (a.2.touched ≤ b.2.touched)) = hd :: tl := by
    cases hms : cache.mergeSort (fun a b => decide (a.2.touched ≤ b.2.touched)) with
    | nil => rw [hms] at hlensorted; simp at hlensorted
    | cons a b => exact ⟨a, b, rfl⟩
  have hpairwise : (hd :: tl).Pairwise
      (fun a b => decide (a.2.touched ≤ b.2.touched)) := by
    rw [← hsorted]
    exact List.sorted_mergeSort
      (fun a b c p1 p2 => by simp at p1 p2 ⊢; omega)
      (fun a b => by simp; omega) cache
  have hperm := List.mergeSort_perm cache (fun a b => decide (a.2.touched ≤ b.2.touched))
  have hdmem : hd ∈ cache := by
    refine hperm.mem_iff.mp ?_
    rw [hsorted]
    exact List.mem_cons_self hd tl
  have hhd : hd = (mk, ment) := by
    by_contra hne
    have h1 := hmin hd hdmem hne
    have hm : (mk, ment) ∈ hd :: tl := by
      rw [← hsorted]
      exact hperm.mem_iff.mpr hmem
    cases hm with
    | head => exact hne rfl
    | tail _ hmt =>
      have hrel := List.rel_of_pairwise_cons hpairwise hmt
      simp at hrel
      omega
  have hresult : pruneCache now N cache = mapDelete mk cache := by
    rw [pruneCache]
    simp only [hfilter]
    rw [if_neg hnotle]
    rw [hsorted, hlen]
    have hto : N + 1 - N = 1 := by omega
    rw [hto]
    simp only [List.take_succ_cons, List.take_zero, List.foldl_cons, List.foldl_nil]
    rw [hhd]
  refine ⟨fun maxSize st k v e tch => rfl, ?_, ?_, ?_, ?_⟩
  · intro ms c2 q hq
    rw [pruneCache] at hq
    by_cases hle : (c2.filter (fun p => !decide (p.2.expires ≤ now))).length ≤ ms
    · rw [if_pos hle] at hq
      have := (List.mem_filter.mp hq).2
      simp at this
      omega
    · rw [if_neg hle] at hq
      have h2 := mem_foldl_mapDelete _ _ q hq
      have := (List.mem_filter.mp h2).2
      simp at this
      omega
  · rw [hresult]
    have := length_mapDelete_nodup mk ment cache hmem hkeys
    omega
  · rw [hresult]
    intro hcontra
    exact ((mem_mapDelete mk cache (mk, ment)).mp hcontra).2 rfl
  · intro p hp hpk
    rw [hresult]
    exact (mem_mapDelete mk cache p).mpr ⟨hp, hpk⟩

/-- Witness for C7 on a concrete three-entry cache with bound 2. -/
theorem pruneCache_size_bound_lru_witness :
    (∀ (maxSize : Nat) (st : CState Nat String) (k : String) (v : Nat) (e tch : Int),
      (step maxSize st (.settleOk k v e tch)).cache
        = pruneCache tch maxSize (mapSet k ⟨e, v, tch⟩ st.cache))
    ∧ (∀ (ms : Nat) (c2 : CacheMap Nat) (q : String × CacheEntry Nat),
        q ∈ pruneCache 0 ms c2 → 0 < q.2.expires)
    ∧ (pruneCache 0 2 demoCache).length = 2
    ∧ ("b", (⟨100, 2, 5⟩ : CacheEntry Nat)) ∉ pruneCache 0 2 demoCache
    ∧ (∀ p ∈ demoCache, p.1 ≠ "b" → p ∈ pruneCache 0 2 demoCache) :=
  pruneCache_size_bound_lru 0 2 demoCache "b" ⟨100, 2, 5⟩ (by decide) (by decide)
    (by decide) (by decide) (by decide)

/-! ## Cache keys -/

/-- A stable sort does not change which elements are present, so it
preserves the all test. -/
theorem all_mergeSort {α : Type} (l : List α) (le : α → α → Bool) (f : α → Bool) :
    (l.mergeSort le).all f = l.all f := by
  cases hb : l.all f with
  | false =>
    cases hs : (l.mergeSort le).all f with
    | false => rfl
    | true =>
      exfalso
      have : l.all f = true := by
        rw [List.all_eq_true]
        intro x hx
        exact (List.all_eq_true.mp hs) x (List.mem_mergeSort.mpr hx)
      rw [hb] at this
      cases this
  | true =>
    rw [List.all_eq_true]
    intro x hx
    exact (List.all_eq_true.mp hb) x (List.mem_mergeSort.mp hx)

/-- A params object with any unserializable value serializes to the
fixed sentinel. -/
theorem serializeParams_unserializable (p : ParamsObj)
    (h : p.all (fun q => q.2.jsonSerializable) = false) :
    serializeParams (some p) = "__UNSERIALIZABLE_PARAMS__" := by
  have h2 : (p.mergeSort (fun a b => decide (a.1 ≤ b.1))).all
      (fun q => q.2.jsonSerializable) = false := by
    rw [all_mergeSort]
    exact h
  have h3 : stringifyObj (p.mergeSort (fun a b => decide (a.1 ≤ b.1))) = none := by
    rw [stringifyObj, h2]
    simp
  simp only [serializeParams, h3]

/-- Claim C10: any two distinct parameter objects whose serialization
throws both map to the sentinel string, hence to the same getDrives
cache key, and a second call with the other parameters within the
TTL of the first result is served that cached result with exactly one
upstream call. -/
theorem unserializable_params_one_slot (vin : String) (p1 p2 : ParamsObj)
    (h1 : p1.all (fun q => q.2.jsonSerializable) = false)
    (h2 : p2.all (fun q => q.2.jsonSerializable) = false)
    (hne : p1 ≠ p2) :
    p1 ≠ p2
    ∧ serializeParams (some p1) = "__UNSERIALIZABLE_PARAMS__"
    ∧ serializeParams (some p2) = "__UNSERIALIZABLE_PARAMS__"
    ∧ getDrivesKey vin (some p1) = getDrivesKey vin (some p2)
    ∧ (∀ (V F : Type) (maxSize : Nat) (v : V) (c1 c2 : Nat) (t0 e tch t2 : Int),
        tch < e → t2 < e → 0 < maxSize →
        runTrace maxSize [CEvent.call c1 (getDrivesKey vin (some p1)) t0,
          CEvent.settleOk (getDrivesKey vin (some p1)) v e tch,
          (CEvent.call c2 (getDrivesKey vin (some p2)) t2 : CEvent V F)]
          = ⟨[(getDrivesKey vin (some p1), ⟨e, v, tch⟩)], [],
             [(c2, Except.ok v), (c1, Except.ok v)], [getDrivesKey vin (some p1)]⟩) := by
  have hs1 := serializeParams_unserializable p1 h1
  have hs2 := serializeParams_unserializable p2 h2
  have hkey : getDrivesKey vin (some p1) = getDrivesKey vin (some p2) := by
    rw [getDrivesKey, getDrivesKey, hs1, hs2]
  refine ⟨hne, hs1, hs2, hkey, ?_⟩
  intro V F maxSize v c1 c2 t0 e tch t2 hstore hwithin hmax
  rw [hkey]
  exact runTrace_one_fetch maxSize (getDrivesKey vin (some p2)) v c1 c2 t0 e tch t2
    hstore hwithin hmax

/-- Witness for C10 at two distinct BigInt-carrying parameter
objects. -/
theorem unserializable_params_one_slot_witness :
    paramsBig1 ≠ paramsBig2
    ∧ serializeParams (some paramsBig1) = "__UNSERIALIZABLE_PARAMS__"
    ∧ serializeParams (some paramsBig2) = "__UNSERIALIZABLE_PARAMS__"
    ∧ getDrivesKey "VIN123" (some paramsBig1) = getDrivesKey "VIN123" (some paramsBig2)
    ∧ (∀ (V F : Type) (maxSize : Nat) (v : V) (c1 c2 : Nat) (t0 e tch t2 : Int),
        tch < e → t2 < e → 0 < maxSize →
        runTrace maxSize [CEvent.call c1 (getDrivesKey "VIN123" (some paramsBig1)) t0,
          CEvent.settleOk (getDrivesKey "VIN123" (some paramsBig1)) v e tch,
          (CEvent.call c2 (getDrivesKey "VIN123" (some paramsBig2)) t2 : CEvent V F)]
          = ⟨[(getDrivesKey "VIN123" (some paramsBig1), ⟨e, v, tch⟩)], [],
             [(c2, Except.ok v), (c1, Except.ok v)],
             [getDrivesKey "VIN123" (some paramsBig1)]⟩) :=
  unserializable_params_one_slot "VIN123" paramsBig1 paramsBig2 (by decide) (by decide)
    (by decide)

/-! ## Sanitizer -/

/-- Claim C9 (code bug in the source): on the one-element cyclic
array (a = []; a.push(a)) the sanitizer recurses without bound - at
every call depth the model is still unfinished - because the array
branch recurses into elements without consulting the visited set; a
self-referential plain object, by contrast, is replaced by the
"[Circular]" sentinel exactly as the claim describes. -/
theorem sanitizeMetaDeep_cyclic_array_diverges :
    (∀ fuel, sanitizeRef cyclicArrayHeap fuel [] (.addr 0) = none)
    ∧ sanitizeRef cyclicObjHeap 2 [] (.addr 0)
        = some (.obj [("self", .circular)], [0]) := by
  refine ⟨?_, ?_⟩
  · intro fuel
    induction fuel with
    | zero => rfl
    | succ n ih =>
      simp only [cyclicArrayHeap] at ih
      simp [sanitizeRef, sanitizeElems, cyclicArrayHeap, List.lookup, ih]
  · have hself : lowerKey "self" ∉ sensitiveKeys := by decide
    simp [sanitizeRef, sanitizeFields, cyclicObjHeap, hself, List.lookup]

end TessieMcp
